import Mathlib

/-!
Verification of the SportsAnalytics repository scraping scripts.

This file shallowly embeds the parts of the repository that the checked
properties concern:
  - the CSV writing done through the Python csv module and pandas to_csv
    (year_to_year_download.create_csv, alltime_rookie_contracts.create_csv,
    hw2-download.write_to_csv, cbb_stat_scraper.save_player_data), together
    with a standard CSV reader, for the round-trip properties;
  - the scraping loops of year_to_year_download.py, cbb_stat_scraper.py and
    hw2-download.py as trace-producing functions over a network oracle,
    for the timing, error-handling and checkpointing properties;
  - the winner computation of createCSV.py.

Python strings are embedded as lists of characters.  HTTP is embedded as an
oracle mapping a URL to either a raised request exception or a parsed page;
each script function returns the list of externally visible events it
performs (HTTP GET requests, sleeps, console messages) next to its value.
-/

abbrev Str := List Char

/-- Lower-casing of a Python string (str.lower). -/
def lowerStr (s : Str) : Str := s.map Char.toLower

/-- Python str whitespace test for the characters relevant here. -/
def isSpaceChar (c : Char) : Bool :=
  c = ' ' || c = '\t' || c = '\n' || c = '\r'

/-- Python str.strip: drop whitespace from both ends. -/
def stripStr (s : Str) : Str :=
  ((s.dropWhile isSpaceChar).reverse.dropWhile isSpaceChar).reverse

/-- Python str.replace removing every dot (used as replace with empty). -/
def remDots (s : Str) : Str := s.filter (fun c => c ≠ '.')

/-- Does the second list occur at the head of the first (Python startswith). -/
def startsSeq : Str → Str → Bool
  | _, [] => true
  | [], _ :: _ => false
  | c :: s, d :: t => c = d && startsSeq s t

/-- Python substring containment test: needle in hay. -/
def containsSeq (hay needle : Str) : Bool :=
  match hay with
  | [] => needle.isEmpty
  | _ :: rest => startsSeq hay needle || containsSeq rest needle

/-! ### CSV writer (Python csv module, excel dialect, QUOTE_MINIMAL)

create_csv in year_to_year_download.py and alltime_rookie_contracts.py uses
csv.writer with default settings: delimiter comma, quotechar a double quote,
line terminator CRLF, minimal quoting.  A field is quoted when it contains a
delimiter, a quote or a line-terminator character, and also when it is the
empty sole field of its record; quotes are escaped by doubling.
pandas DataFrame.to_csv (cbb_stat_scraper.save_player_data) writes the same
format with LF as the line terminator, so the writer is parameterised by the
terminator. -/

abbrev CsvRow := List Str

/-- Does Python QUOTE_MINIMAL need to quote this field content. -/
def csvNeedsQuote (f : Str) : Bool :=
  f.any (fun c => c = ',' || c = '"' || c = '\r' || c = '\n')

/-- Escape the content of a quoted field: double every quote. -/
def csvEscape : Str → Str
  | [] => []
  | c :: cs => (if c = '"' then ['"', '"'] else [c]) ++ csvEscape cs

/-- Encode one field; sole says whether it is the only field of its record
(Python quotes an empty sole field to keep it apart from a blank line). -/
def csvEncodeField (sole : Bool) (f : Str) : Str :=
  if csvNeedsQuote f || (sole && f.isEmpty) then '"' :: csvEscape f ++ ['"'] else f

/-- Comma-join the encoded fields of a record with two or more fields. -/
def csvJoinFields : CsvRow → Str
  | [] => []
  | [f] => csvEncodeField false f
  | f :: g :: rest => csvEncodeField false f ++ ',' :: csvJoinFields (g :: rest)

/-- Encode one record followed by the line terminator term. -/
def csvEncodeRow (term : Str) (r : CsvRow) : Str :=
  match r with
  | [f] => csvEncodeField true f ++ term
  | _ => csvJoinFields r ++ term

/-- Encode a whole file: one terminated record per row. -/
def csvWriteWith (term : Str) (rows : List CsvRow) : Str :=
  (rows.map (csvEncodeRow term)).flatten

/-- The Python csv module writes CRLF line terminators. -/
def csvWrite (rows : List CsvRow) : Str := csvWriteWith ['\r', '\n'] rows

/-- pandas DataFrame.to_csv writes LF line terminators. -/
def pdWrite (rows : List CsvRow) : Str := csvWriteWith ['\n'] rows

/-! ### CSV reader (a standard RFC-4180 style reader, as csv.reader) -/

inductive CsvMode where
  | start | unquoted | quoted | afterQuote | afterCR
deriving DecidableEq, Repr

structure CsvState where
  rows : List CsvRow
  cur : CsvRow
  field : Str
  mode : CsvMode
deriving Repr

/-- The row emitted when a record ends while at the start of a field:
a wholly blank line reads as the empty record. -/
def csvEndAtStart (s : CsvState) : CsvRow :=
  if s.cur.isEmpty then [] else s.cur ++ [s.field]

/-- One character of the CSV reading state machine. -/
def csvStep (s : CsvState) (c : Char) : CsvState :=
  match s.mode with
  | .start =>
    if c = '"' then { s with mode := .quoted }
    else if c = ',' then { s with cur := s.cur ++ [s.field], field := [] }
    else if c = '\r' then
      ⟨s.rows ++ [csvEndAtStart s], [], [], .afterCR⟩
    else if c = '\n' then
      ⟨s.rows ++ [csvEndAtStart s], [], [], .start⟩
    else { s with field := s.field ++ [c], mode := .unquoted }
  | .unquoted =>
    if c = ',' then { s with cur := s.cur ++ [s.field], field := [], mode := .start }
    else if c = '\r' then
      ⟨s.rows ++ [s.cur ++ [s.field]], [], [], .afterCR⟩
    else if c = '\n' then
      ⟨s.rows ++ [s.cur ++ [s.field]], [], [], .start⟩
    else { s with field := s.field ++ [c] }
  | .quoted =>
    if c = '"' then { s with mode := .afterQuote }
    else { s with field := s.field ++ [c] }
  | .afterQuote =>
    if c = '"' then { s with field := s.field ++ ['"'], mode := .quoted }
    else if c = ',' then { s with cur := s.cur ++ [s.field], field := [], mode := .start }
    else if c = '\r' then
      ⟨s.rows ++ [s.cur ++ [s.field]], [], [], .afterCR⟩
    else if c = '\n' then
      ⟨s.rows ++ [s.cur ++ [s.field]], [], [], .start⟩
    else { s with field := s.field ++ [c], mode := .unquoted }
  | .afterCR =>
    if c = '\n' then { s with mode := .start }
    else if c = '"' then { s with mode := .quoted }
    else if c = ',' then { s with cur := s.cur ++ [s.field], field := [] }
    else if c = '\r' then
      ⟨s.rows ++ [csvEndAtStart s], [], [], .afterCR⟩
    else { s with field := s.field ++ [c], mode := .unquoted }

/-- Finish reading at end of input, emitting any record still in progress. -/
def csvFinish (s : CsvState) : List CsvRow :=
  match s.mode with
  | .start => if s.cur.isEmpty then s.rows else s.rows ++ [s.cur ++ [s.field]]
  | .afterCR => s.rows
  | _ => s.rows ++ [s.cur ++ [s.field]]

/-- Read a CSV file into its list of records. -/
def csvParse (input : Str) : List CsvRow :=
  csvFinish (input.foldl csvStep ⟨[], [], [], .start⟩)

example : csvParse (csvWrite [["ab".toList, "c,d".toList], []]) =
    [["ab".toList, "c,d".toList], []] := by decide

example : csvParse (csvWrite [[[]], ['x' :: '"' :: []]]) =
    [[[]], ['x' :: '"' :: []]] := by decide

/-! ### Round-trip lemmas for the CSV embedding -/

/-- The reader mode in which consuming an encoded field leaves the machine. -/
def csvModeAfter (sole : Bool) (f : Str) : CsvMode :=
  if csvNeedsQuote f || (sole && f.isEmpty) then .afterQuote
  else if f.isEmpty then .start else .unquoted

theorem foldl_csvStep_escape (f : Str) (rest : Str) (rows : List CsvRow)
    (cur : CsvRow) (g : Str) :
    List.foldl csvStep ⟨rows, cur, g, .quoted⟩ (csvEscape f ++ rest) =
      List.foldl csvStep ⟨rows, cur, g ++ f, .quoted⟩ rest := by
  induction f generalizing g with
  | nil => simp [csvEscape]
  | cons c cs ih =>
    by_cases hc : c = '"'
    · subst hc
      have he : csvEscape ('"' :: cs) = '"' :: '"' :: csvEscape cs := by
        simp [csvEscape]
      have h1 : csvStep ⟨rows, cur, g, .quoted⟩ '"' = ⟨rows, cur, g, .afterQuote⟩ := by
        simp [csvStep]
      have h2 : csvStep ⟨rows, cur, g, .afterQuote⟩ '"' =
          ⟨rows, cur, g ++ ['"'], .quoted⟩ := by
        simp [csvStep]
      rw [he, List.cons_append, List.cons_append, List.foldl_cons, List.foldl_cons,
        h1, h2, ih]
      simp
    · have he : csvEscape (c :: cs) = c :: csvEscape cs := by
        simp [csvEscape, hc]
      have h1 : csvStep ⟨rows, cur, g, .quoted⟩ c = ⟨rows, cur, g ++ [c], .quoted⟩ := by
        simp [csvStep, hc]
      rw [he, List.cons_append, List.foldl_cons, h1, ih]
      simp

theorem foldl_csvStep_unquoted (f : Str) (rest : Str) (rows : List CsvRow)
    (cur : CsvRow) (g : Str)
    (hf : ∀ c ∈ f, (c = ',' || c = '"' || c = '\r' || c = '\n') = false) :
    List.foldl csvStep ⟨rows, cur, g, .unquoted⟩ (f ++ rest) =
      List.foldl csvStep ⟨rows, cur, g ++ f, .unquoted⟩ rest := by
  induction f generalizing g with
  | nil => simp
  | cons c cs ih =>
    have hc := hf c (by simp)
    simp only [Bool.or_eq_false_iff, decide_eq_false_iff_not] at hc
    obtain ⟨⟨⟨h1, h2⟩, h3⟩, h4⟩ := hc
    simp only [List.cons_append, List.foldl_cons]
    have hstep : csvStep ⟨rows, cur, g, .unquoted⟩ c = ⟨rows, cur, g ++ [c], .unquoted⟩ := by
      simp [csvStep, h1, h2, h3, h4]
    rw [hstep, ih _ (fun d hd => hf d (by simp [hd]))]
    simp

theorem csvNeedsQuote_eq_false_iff (f : Str) :
    csvNeedsQuote f = false ↔
      ∀ c ∈ f, (c = ',' || c = '"' || c = '\r' || c = '\n') = false := by
  simp [csvNeedsQuote, List.any_eq_false]

theorem foldl_csvStep_encodeField (sole : Bool) (f : Str) (rest : Str)
    (rows : List CsvRow) (cur : CsvRow) :
    List.foldl csvStep ⟨rows, cur, [], .start⟩ (csvEncodeField sole f ++ rest) =
      List.foldl csvStep ⟨rows, cur, f, csvModeAfter sole f⟩ rest := by
  by_cases hq : (csvNeedsQuote f || (sole && f.isEmpty)) = true
  · simp only [csvEncodeField, if_pos hq, csvModeAfter, if_pos hq]
    have h0 : csvStep ⟨rows, cur, [], .start⟩ '"' = ⟨rows, cur, [], .quoted⟩ := by
      simp [csvStep]
    have hre : ('"' :: csvEscape f ++ ['"']) ++ rest =
        '"' :: (csvEscape f ++ ('"' :: rest)) := by simp
    rw [hre, List.foldl_cons, h0, foldl_csvStep_escape]
    have h1 : csvStep ⟨rows, cur, [] ++ f, .quoted⟩ '"' =
        ⟨rows, cur, [] ++ f, .afterQuote⟩ := by
      simp [csvStep]
    rw [List.foldl_cons, h1]
    simp
  · simp only [csvEncodeField, if_neg hq, csvModeAfter, if_neg hq]
    have hnq : csvNeedsQuote f = false := by
      rcases Bool.or_eq_false_iff.mp (Bool.eq_false_iff.mpr hq) with ⟨h, _⟩
      exact h
    have hsafe := (csvNeedsQuote_eq_false_iff f).mp hnq
    cases f with
    | nil => simp
    | cons c cs =>
      have hc := hsafe c (by simp)
      simp only [Bool.or_eq_false_iff, decide_eq_false_iff_not] at hc
      obtain ⟨⟨⟨h1, h2⟩, h3⟩, h4⟩ := hc
      simp only [List.cons_append, List.foldl_cons, List.isEmpty_cons]
      have hstep : csvStep ⟨rows, cur, [], .start⟩ c = ⟨rows, cur, [c], .unquoted⟩ := by
        simp [csvStep, h1, h2, h3, h4]
      rw [hstep, foldl_csvStep_unquoted cs rest rows cur [c]
        (fun d hd => hsafe d (by simp [hd]))]
      simp

theorem csvModeAfter_cases (sole : Bool) (f : Str) :
    csvModeAfter sole f = .unquoted ∨ csvModeAfter sole f = .afterQuote ∨
      (csvModeAfter sole f = .start ∧ f = []) := by
  unfold csvModeAfter
  split
  · exact Or.inr (Or.inl rfl)
  · split
    · next h hemp => exact Or.inr (Or.inr ⟨rfl, List.isEmpty_iff.mp hemp⟩)
    · exact Or.inl rfl

theorem csvModeAfter_sole_ne_start (f : Str) : csvModeAfter true f ≠ .start := by
  unfold csvModeAfter
  split
  · simp
  · next h =>
    have : f.isEmpty = false := by
      rcases Bool.or_eq_false_iff.mp (Bool.eq_false_iff.mpr h) with ⟨_, h2⟩
      simpa using h2
    simp [this]

theorem csvStep_comma_after (sole : Bool) (f : Str) (rows : List CsvRow) (cur : CsvRow) :
    csvStep ⟨rows, cur, f, csvModeAfter sole f⟩ ',' = ⟨rows, cur ++ [f], [], .start⟩ := by
  rcases csvModeAfter_cases sole f with hm | hm | ⟨hm, hf⟩
  · rw [hm]; simp [csvStep]
  · rw [hm]; simp [csvStep]
  · rw [hm]; subst hf; simp [csvStep]

theorem csvStep_cr_after (m : CsvMode) (f : Str) (rows : List CsvRow) (cur : CsvRow)
    (hm : m = .unquoted ∨ m = .afterQuote ∨ (m = .start ∧ cur ≠ [])) :
    csvStep ⟨rows, cur, f, m⟩ '\r' = ⟨rows ++ [cur ++ [f]], [], [], .afterCR⟩ := by
  rcases hm with hm | hm | ⟨hm, hc⟩
  · subst hm; simp [csvStep]
  · subst hm; simp [csvStep]
  · subst hm; simp [csvStep, csvEndAtStart, hc]

theorem csvStep_lf_after (m : CsvMode) (f : Str) (rows : List CsvRow) (cur : CsvRow)
    (hm : m = .unquoted ∨ m = .afterQuote ∨ (m = .start ∧ cur ≠ [])) :
    csvStep ⟨rows, cur, f, m⟩ '\n' = ⟨rows ++ [cur ++ [f]], [], [], .start⟩ := by
  rcases hm with hm | hm | ⟨hm, hc⟩
  · subst hm; simp [csvStep]
  · subst hm; simp [csvStep]
  · subst hm; simp [csvStep, csvEndAtStart, hc]

theorem csvStep_afterCR_lf (f : Str) (rows : List CsvRow) (cur : CsvRow) :
    csvStep ⟨rows, cur, f, .afterCR⟩ '\n' = ⟨rows, cur, f, .start⟩ := by
  simp [csvStep]

theorem foldl_csvStep_term (sole : Bool) (f : Str) (term rest : Str)
    (rows : List CsvRow) (cur : CsvRow)
    (ht : term = ['\r', '\n'] ∨ term = ['\n'])
    (hc : cur ≠ [] ∨ csvModeAfter sole f ≠ .start) :
    List.foldl csvStep ⟨rows, cur, f, csvModeAfter sole f⟩ (term ++ rest) =
      List.foldl csvStep ⟨rows ++ [cur ++ [f]], [], [], .start⟩ rest := by
  have hm : csvModeAfter sole f = .unquoted ∨ csvModeAfter sole f = .afterQuote ∨
      (csvModeAfter sole f = .start ∧ cur ≠ []) := by
    rcases csvModeAfter_cases sole f with h | h | ⟨h, _⟩
    · exact Or.inl h
    · exact Or.inr (Or.inl h)
    · rcases hc with hcur | hne
      · exact Or.inr (Or.inr ⟨h, hcur⟩)
      · exact absurd h hne
  rcases ht with ht | ht <;> subst ht
  · rw [List.cons_append, List.foldl_cons, csvStep_cr_after _ _ _ _ hm,
      List.cons_append, List.nil_append, List.foldl_cons, csvStep_afterCR_lf]
  · rw [List.cons_append, List.nil_append, List.foldl_cons,
      csvStep_lf_after _ _ _ _ hm]

theorem foldl_csvStep_joinFields (fs : CsvRow) (term rest : Str)
    (rows : List CsvRow) (cur : CsvRow)
    (hfs : fs ≠ [])
    (hcur : cur ≠ [] ∨ 2 ≤ fs.length)
    (ht : term = ['\r', '\n'] ∨ term = ['\n']) :
    List.foldl csvStep ⟨rows, cur, [], .start⟩ (csvJoinFields fs ++ term ++ rest) =
      List.foldl csvStep ⟨rows ++ [cur ++ fs], [], [], .start⟩ rest := by
  induction fs generalizing cur with
  | nil => exact absurd rfl hfs
  | cons f fs ih =>
    cases fs with
    | nil =>
      have hc1 : cur ≠ [] := by
        rcases hcur with h | h
        · exact h
        · simp at h
      have : csvJoinFields [f] ++ term ++ rest = csvEncodeField false f ++ (term ++ rest) := by
        simp [csvJoinFields]
      rw [this, foldl_csvStep_encodeField, foldl_csvStep_term false f term rest rows cur ht
        (Or.inl hc1)]
    | cons g fs' =>
      have : csvJoinFields (f :: g :: fs') ++ term ++ rest =
          csvEncodeField false f ++ (',' :: (csvJoinFields (g :: fs') ++ term ++ rest)) := by
        simp [csvJoinFields]
      rw [this, foldl_csvStep_encodeField, List.foldl_cons, csvStep_comma_after,
        ih (cur ++ [f]) (by simp) (Or.inl (by simp))]
      simp

theorem foldl_csvStep_row (r : CsvRow) (term rest : Str) (rows : List CsvRow)
    (ht : term = ['\r', '\n'] ∨ term = ['\n']) :
    List.foldl csvStep ⟨rows, [], [], .start⟩ (csvEncodeRow term r ++ rest) =
      List.foldl csvStep ⟨rows ++ [r], [], [], .start⟩ rest := by
  match r with
  | [] =>
    have he : csvEncodeRow term [] = term := by simp [csvEncodeRow, csvJoinFields]
    rw [he]
    rcases ht with ht | ht <;> subst ht
    · have h1 : csvStep ⟨rows, [], [], .start⟩ '\r' =
          ⟨rows ++ [[]], [], [], .afterCR⟩ := by
        simp [csvStep, csvEndAtStart]
      rw [List.cons_append, List.foldl_cons, h1, List.cons_append, List.nil_append,
        List.foldl_cons, csvStep_afterCR_lf]
    · have h1 : csvStep ⟨rows, [], [], .start⟩ '\n' =
          ⟨rows ++ [[]], [], [], .start⟩ := by
        simp [csvStep, csvEndAtStart]
      rw [List.cons_append, List.nil_append, List.foldl_cons, h1]
  | [f] =>
    have he : csvEncodeRow term [f] ++ rest = csvEncodeField true f ++ (term ++ rest) := by
      simp [csvEncodeRow]
    rw [he, foldl_csvStep_encodeField, foldl_csvStep_term true f term rest rows []
      ht (Or.inr (csvModeAfter_sole_ne_start f))]
    simp
  | f :: g :: fs =>
    have he : csvEncodeRow term (f :: g :: fs) ++ rest =
        csvJoinFields (f :: g :: fs) ++ term ++ rest := by
      simp [csvEncodeRow]
    rw [he, foldl_csvStep_joinFields (f :: g :: fs) term rest rows []
      (by simp) (Or.inr (by simp)) ht]
    simp

theorem foldl_csvStep_file (rl : List CsvRow) (term rest : Str) (rows0 : List CsvRow)
    (ht : term = ['\r', '\n'] ∨ term = ['\n']) :
    List.foldl csvStep ⟨rows0, [], [], .start⟩ (csvWriteWith term rl ++ rest) =
      List.foldl csvStep ⟨rows0 ++ rl, [], [], .start⟩ rest := by
  induction rl generalizing rows0 with
  | nil => simp [csvWriteWith]
  | cons r rl ih =>
    have he : csvWriteWith term (r :: rl) ++ rest =
        csvEncodeRow term r ++ (csvWriteWith term rl ++ rest) := by
      simp [csvWriteWith]
    rw [he, foldl_csvStep_row r term _ rows0 ht, ih]
    simp

/-- Writing any list of records and reading the file back is the identity,
for both the csv-module terminator and the pandas terminator. -/
theorem csvParse_csvWriteWith (rl : List CsvRow) (term : Str)
    (ht : term = ['\r', '\n'] ∨ term = ['\n']) :
    csvParse (csvWriteWith term rl) = rl := by
  unfold csvParse
  have := foldl_csvStep_file rl term [] [] ht
  rw [List.append_nil] at this
  rw [this]
  simp [csvFinish]

theorem csvParse_csvWrite (rl : List CsvRow) : csvParse (csvWrite rl) = rl :=
  csvParse_csvWriteWith rl _ (Or.inl rfl)

theorem csvParse_pdWrite (rl : List CsvRow) : csvParse (pdWrite rl) = rl :=
  csvParse_csvWriteWith rl _ (Or.inr rfl)

/-- Reading a file made of two written parts concatenates their records
(used for the append-mode writes of cbb_stat_scraper). -/
theorem csvParse_append (rl rl2 : List CsvRow) (t1 t2 : Str)
    (h1 : t1 = ['\r', '\n'] ∨ t1 = ['\n']) (h2 : t2 = ['\r', '\n'] ∨ t2 = ['\n']) :
    csvParse (csvWriteWith t1 rl ++ csvWriteWith t2 rl2) = rl ++ rl2 := by
  unfold csvParse
  rw [foldl_csvStep_file rl t1 _ [] h1]
  have := foldl_csvStep_file rl2 t2 [] ([] ++ rl) h2
  rw [List.append_nil] at this
  rw [this]
  simp [csvFinish]

/-! ### Event traces

Each embedded script function returns, besides its value, the list of
externally visible events it performs in order: HTTP GET requests, sleeps
(time.sleep with a fixed argument, or the random.uniform sleep of
cbb_stat_scraper), and console error messages.  Informational console
output (headings, colour-formatted rows) is not recorded. -/

inductive Ev where
  | get (url : Str)
  | sleep (secs : Nat)
  | sleepRand
  | msg (text : Str)
deriving DecidableEq, Repr

def isSleepEv : Ev → Bool
  | .sleep _ => true
  | .sleepRand => true
  | _ => false

def isGetEv : Ev → Bool
  | .get _ => true
  | _ => false

/-- How often a given URL is requested in a trace. -/
def getCount (t : List Ev) (url : Str) : Nat :=
  (t.filter (fun e => e = .get url)).length

/-- Scanner for the claim that any two successive GET requests have a sleep
between them: sg records whether a GET has been seen since the last sleep. -/
def sleepSepAux : List Ev → Bool → Bool
  | [], _ => true
  | .get _ :: rest, sg => if sg then false else sleepSepAux rest true
  | e :: rest, sg =>
    if isSleepEv e then sleepSepAux rest false else sleepSepAux rest sg

/-- Every two successive GET requests of the trace are separated by a sleep. -/
def sleepSeparated (t : List Ev) : Bool := sleepSepAux t false

/-! ### year_to_year_download.py and alltime_rookie_contracts.py

The Spotrac network is an oracle: tableOf maps the extensions-page URL for a
year to a raised request exception (the error side carries the exception
text), or to the table of the page parsed into rows (none when the page has
no table element).  draftOf maps a player-page URL to an exception or to the
draft-year string that scrape_draft_year_from_spotrac would return after its
div traversal (none when no Drafted div with a text-yellow span is found). -/

structure SRow where
  contractType : Option Str
  cells : List Str
  playerLink : Option Str
deriving Repr, DecidableEq

structure SpotracNet where
  tableOf : Str → Except Str (Option (List SRow))
  draftOf : Str → Except Str (Option Str)

def spotracBase : Str := "https://www.spotrac.com".toList

/-- Player URL resolution in fetch_extension_data: relative hrefs get the
site root prepended. -/
def resolveUrl (href : Str) : Str :=
  if startsSeq href ['/'] then spotracBase ++ href else href

def naStr : Str := "N/A".toList

def rookieWord : Str := "rookie".toList

/-- scrape_draft_year_from_spotrac: one GET for the player page; a request
exception is caught, logged to the console and turned into None. -/
def scrape_draft_year_from_spotrac (net : SpotracNet) (player_url : Str) :
    List Ev × Option Str :=
  match net.draftOf player_url with
  | .error e =>
    ([.get player_url, .msg ("Error fetching player data from URL: ".toList ++ e)], none)
  | .ok d => ([.get player_url], d)

/-- The body of the row loop of fetch_extension_data: rows whose
contract-type cell text contains rookie (case-insensitively) are kept; the
draft year is scraped from the player link when one is present and inserted
in front of the cell texts, with falsy results replaced by N/A. -/
def processSRow (net : SpotracNet) (r : SRow) : List Ev × Option (List Str) :=
  match r.contractType with
  | none => ([], none)
  | some t =>
    if containsSeq (lowerStr t) rookieWord then
      match r.playerLink with
      | some href =>
        let res := scrape_draft_year_from_spotrac net (resolveUrl href)
        let dy := match res.2 with
          | some y => if y = [] then naStr else y
          | none => naStr
        (res.1, some (dy :: r.cells))
      | none => ([], some r.cells)
    else ([], none)

def processSRows (net : SpotracNet) : List SRow → List Ev × List (List Str)
  | [] => ([], [])
  | r :: rs =>
    let h := processSRow net r
    let t := processSRows net rs
    (h.1 ++ t.1, (match h.2 with | some d => [d] | none => []) ++ t.2)

def intDigits (y : Int) : Str := (toString y).toList

def yearUrl (year : Int) : Str :=
  "https://www.spotrac.com/nba/contracts/extensions/_/year/".toList ++
    intDigits year ++ "/sort/value".toList

/-- fetch_extension_data: one GET for the year page inside a try block that
catches request exceptions; on success the rows are processed (requesting
player pages as it goes) and time.sleep(delay) runs once after the row loop,
still inside the try block; on a request exception the error is printed and
the empty data list is returned without sleeping. -/
def fetch_extension_data (net : SpotracNet) (year : Int) (delay : Nat) :
    List Ev × List (List Str) :=
  let url := yearUrl year
  match net.tableOf url with
  | .error e =>
    ([.get url, .msg ("Error fetching data from URL: ".toList ++ e)], [])
  | .ok tbl =>
    let res := processSRows net (tbl.getD [])
    ([.get url] ++ res.1 ++ [.sleep delay], res.2)

def rookHeaders : CsvRow :=
  ["YR_1", "Rank", "Player", "Pos", "Team Signed With", "Age At Signing",
    "Yrs", "Value", "AAV", "Practical GTD", "Type"].map String.toList

/-- create_csv of year_to_year_download.py (and, with another filename,
alltime_rookie_contracts.py): the header row then all data rows, through
csv.writer.  Returns the file content. -/
def create_csv (data : List CsvRow) : Str := csvWrite (rookHeaders :: data)

/-- The year loop of main: fetch each year in order, concatenating data. -/
def runYears (net : SpotracNet) : List Int → List Ev × List (List Str)
  | [] => ([], [])
  | y :: ys =>
    let h := fetch_extension_data net y 2
    let t := runYears net ys
    (h.1 ++ t.1, h.2 ++ t.2)

def yearRange (s e : Int) : List Int :=
  (List.range (e + 1 - s).toNat).map (fun i => s + i)

def y2y_filename (s e : Int) : Str :=
  "rooks".toList ++ intDigits s ++ "-".toList ++ intDigits e ++ ".csv".toList

/-- main of year_to_year_download.py.  The two interactive inputs are the
results of int(input(...)): none embeds a ValueError.  The produced output
file is returned as (filename, content); none means no file was created. -/
def y2y_main (net : SpotracNet) (input1 input2 : Option Int) :
    List Ev × Option (Str × Str) :=
  match input1 with
  | none => ([.msg "Please enter valid years.".toList], none)
  | some s =>
    match input2 with
    | none => ([.msg "Please enter valid years.".toList], none)
    | some e =>
      if s > e then
        ([.msg "Start year cannot be greater than end year. Please try again.".toList],
          none)
      else
        let r := runYears net (yearRange s e)
        (r.1 ++ [.msg ("Data has been written to ".toList ++ y2y_filename s e)],
          some (y2y_filename s e, create_csv r.2))

/-! ### cbb_stat_scraper.py

sports-reference.com is an oracle: page maps a letter-index URL to a raised
request exception or to the pair of an HTTP status code and the hyperlinks
of the page; profile maps a player-profile URL to an exception or to the
status code and the page content parsed the way extract_position_and_seasons
and extract_career_stats parse it (position, number of season rows, and the
career-stats row, none when the per-game table or Career row is missing).
Neither requests.get call of the script sits in a try block, so a raised
request exception propagates: the run functions below return none for the
final state in that case. -/

structure Link where
  href : Str
  text : Str
deriving Repr, DecidableEq

structure Profile where
  position : Str
  seasons : Nat
  career : Option (List Str)
deriving Repr, DecidableEq

structure SRNet where
  page : Str → Except Str (Nat × List Link)
  profile : Str → Except Str (Nat × Profile)

def srBase : Str := "https://www.sports-reference.com".toList

/-- Normalisation that search_player_profile applies to the two name
arguments and to link texts: lower-case, remove dots, strip. -/
def nameKey (s : Str) : Str := stripStr (remDots (lowerStr s))

/-- The match test of search_player_profile for one link, given already
normalised names: both names occur in the lower-cased href, or both occur
in the normalised link text. -/
def linkMatches (fn ln : Str) (l : Link) : Bool :=
  let href := lowerStr l.href
  let text := stripStr (remDots (lowerStr l.text))
  (containsSeq href ln && containsSeq href fn) ||
    (containsSeq text ln && containsSeq text fn)

def findLink (fn ln : Str) : List Link → Option Link
  | [] => none
  | l :: ls => if linkMatches fn ln l then some l else findLink fn ln ls

/-- search_player_profile: the first matching hyperlink of the current
letter page gives the profile URL. -/
def search_player_profile (links : List Link) (first_name last_name : Str) :
    Option Str :=
  match findLink (nameKey first_name) (nameKey last_name) links with
  | some l => some (srBase ++ l.href)
  | none => none

/-- is_player_processed: membership of the name in the Player column of
processed_players.csv, embedded as the list of recorded names. -/
def is_player_processed (player_name : Str) (processed : List Str) : Bool :=
  processed.contains player_name

/-- mark_player_processed appends the name to processed_players.csv. -/
def mark_player_processed (player_name : Str) (processed : List Str) : List Str :=
  processed ++ [player_name]

def cbbHeaders : CsvRow :=
  ["Player", "Seasons Played", "Position", "G", "GS", "MP", "FG", "FGA", "FG%",
    "3P", "3PA", "3P%", "2P", "2PA", "2P%", "eFG%", "FT", "FTA", "FT%", "ORB",
    "DRB", "TRB", "AST", "STL", "BLK", "TOV", "PF", "PTS"].map String.toList

def natDigits (n : Nat) : Str := (toString n).toList

/-- save_player_data: empty positions become Unknown, stats equal to N/A are
dropped, and the row [name, seasons, position, stats...] is appended to
player_stats.csv through pandas to_csv; when first_player is set the file is
first rewritten to hold only the 28-column header row.  The function maps
the old file content to the new one. -/
def save_player_data (player_name : Str) (seasons_played : Nat) (position : Str)
    (career_stats : List Str) (content : Str) (first_player : Bool) : Str :=
  let position := if stripStr position = [] then "Unknown".toList else position
  let player_data := player_name :: natDigits seasons_played :: position ::
    career_stats.filter (fun s => s ≠ naStr)
  let base := if first_player then pdWrite [cbbHeaders] else content
  base ++ pdWrite [player_data]

def larryName : Str := "Larry Nance".toList

def larryUrl : Str :=
  "https://www.sports-reference.com/cbb/players/larry-nance-2.html".toList

def indexUrl (letter : Char) : Str :=
  "https://www.sports-reference.com/cbb/players/".toList ++
    [letter] ++ "-index.html".toList

structure CbbState where
  currentLetter : Str
  soup : List Link
  processed : List Str
  firstPlayer : Bool
  statsFile : Str
deriving Repr, DecidableEq

def cbbInit (outputExists : Bool) : CbbState := ⟨[], [], [], !outputExists, []⟩

/-- Profile handling shared by the Larry Nance branch and the generic
branch: GET the profile URL; a request exception aborts; a non-200 status
or missing career stats is logged and the state kept; otherwise
save_player_data and mark_player_processed run. -/
def cbb_fetchProfile (net : SRNet) (st : CbbState) (player_name purl : Str) :
    List Ev × Option CbbState :=
  match net.profile purl with
  | .error _ => ([.get purl], none)
  | .ok (status, prof) =>
    if status = 200 then
      match prof.career with
      | some cs =>
        ([.get purl],
          some { st with
            statsFile := save_player_data player_name prof.seasons prof.position
              cs st.statsFile st.firstPlayer,
            processed := mark_player_processed player_name st.processed,
            firstPlayer := false })
      | none =>
        ([.get purl, .msg ("Could not extract career stats for ".toList ++ player_name)],
          some st)
    else
      ([.get purl, .msg ("Failed to retrieve profile page for ".toList ++ player_name)],
        some st)

/-- The tail of a row iteration once the letter page soup is available:
search for the profile link; a missing profile is logged; otherwise the
profile is fetched and handled. -/
def cbb_fetchFound (net : SRNet) (st : CbbState) (player_name fn ln : Str)
    (links : List Link) : List Ev × Option CbbState :=
  match search_player_profile links fn ln with
  | none =>
    ([.msg ("Profile for ".toList ++ player_name ++ " not found.".toList)], some st)
  | some purl => cbb_fetchProfile net st player_name purl

/-- One iteration of the main row loop of cbb_stat_scraper.  Returns the
events of the iteration and the updated state, or none when an uncaught
request exception aborts the run.  The Larry Nance branch, the
already-processed branch and the failed-index-page branch hit continue and
skip the sleep; every other completed path ends with the randomised sleep. -/
def cbb_processRow (net : SRNet) (st : CbbState) (first_name last_name : Str) :
    List Ev × Option CbbState :=
  let player_name := first_name ++ [' '] ++ last_name
  if player_name = larryName then
    cbb_fetchProfile net st player_name larryUrl
  else if is_player_processed player_name st.processed then
    ([.msg ("Skipping ".toList ++ player_name ++ ", already processed.".toList)],
      some st)
  else
    let fl := (last_name.headD ' ').toLower
    if st.currentLetter = [fl] then
      let r := cbb_fetchFound net st player_name first_name last_name st.soup
      match r.2 with
      | none => (r.1, none)
      | some st2 => (r.1 ++ [.sleepRand], some st2)
    else
      let url := indexUrl fl
      match net.page url with
      | .error _ => ([.get url], none)
      | .ok (status, links) =>
        if status = 200 then
          let st1 := { st with currentLetter := [fl], soup := links }
          let r := cbb_fetchFound net st1 player_name first_name last_name links
          match r.2 with
          | none => ([.get url] ++ r.1, none)
          | some st2 => ([.get url] ++ r.1 ++ [.sleepRand], some st2)
        else
          ([.get url, .msg ("Failed to navigate to ".toList ++ url)], some st)

def firstNameCol : Str := "First Name".toList

def lastNameCol : Str := "Last Name".toList

/-- Lookup of a named column in a pandas row: none embeds the KeyError that
pandas raises when the column is absent. -/
def getField (headers : List Str) (row : List Str) (c : Str) : Option Str :=
  match headers.findIdx? (fun h => h = c) with
  | some i => row[i]?
  | none => none

/-- The row loop of main: each row is processed in order; a KeyError from a
missing name column or a request exception is uncaught and aborts the run
(final state none). -/
def cbb_loop (net : SRNet) (st : CbbState) (headers : List Str) :
    List (List Str) → List Ev × Option CbbState
  | [] => ([], some st)
  | row :: rows =>
    match getField headers row firstNameCol, getField headers row lastNameCol with
    | some fn, some ln =>
      let r := cbb_processRow net st fn ln
      match r.2 with
      | none => (r.1, none)
      | some st2 =>
        let t := cbb_loop net st2 headers rows
        (r.1 ++ t.1, t.2)
    | _, _ => ([], none)

/-- The input file player_names_sorted.csv as pandas reads it. -/
structure PdCsv where
  headers : List Str
  rows : List (List Str)
deriving Repr

/-- main of cbb_stat_scraper.py: a missing input file is detected with an
existence check and produces a console message and a normal return; then the
rows are iterated. -/
def cbb_main (net : SRNet) (inputFile : Option PdCsv) (outputExists : Bool) :
    List Ev × Option CbbState :=
  match inputFile with
  | none =>
    ([.msg "Error: The input CSV file player_names_sorted.csv was not found.".toList],
      some (cbbInit outputExists))
  | some csv => cbb_loop net (cbbInit outputExists) csv.headers csv.rows

/-! ### hw2-download.py

The checkpoint file processed_games.txt is embedded as its raw character
content.  The baseball-reference network is an oracle taking a box-score URL
to a raised request exception or to the play-by-play rows that
scrape_single_game plus extract_inning_info would produce (none when the
page has no play_by_play table).  requests.get is not in a try block, so an
exception propagates and aborts the run. -/

/-- Python splitlines restricted to LF line breaks, the only break the
script writes. -/
def splitLines (cur : Str) : Str → List Str
  | [] => if cur = [] then [] else [cur]
  | c :: rest =>
    if c = '\n' then cur :: splitLines [] rest else splitLines (cur ++ [c]) rest

/-- is_url_processed: the URL is one of the lines of processed_games.txt;
a missing file reads as no lines. -/
def is_url_processed (url : Str) (content : Str) : Bool :=
  (splitLines [] content).contains url

/-- mark_url_as_processed appends the URL and a newline to the file. -/
def mark_url_as_processed (url : Str) (content : Str) : Str :=
  content ++ url ++ ['\n']

structure BBRefNet where
  game : Str → Except Str (Option (List Str))

/-- One iteration of the game loop of scrape_all_games: already processed
URLs are skipped with a message and continue (no GET, no sleep); otherwise
the game page is requested; a missing table or empty play data is logged;
games with data are marked processed; time.sleep(5) ends every non-continue
iteration.  none embeds an uncaught request exception aborting the run. -/
def hw2_body (net : BBRefNet) (content : Str) (url : Str) :
    List Ev × Option (Str × List Str) :=
  if is_url_processed url content then
    ([.msg ("Skipping already processed game: ".toList ++ url)], some (content, []))
  else
    match net.game url with
    | .error _ => ([.get url], none)
    | .ok none =>
      ([.get url, .msg ("No play-by-play data found for ".toList ++ url), .sleep 5],
        some (content, []))
    | .ok (some plays) =>
      if plays = [] then
        ([.get url, .msg ("No play-by-play data found for ".toList ++ url), .sleep 5],
          some (content, []))
      else
        ([.get url, .sleep 5], some (mark_url_as_processed url content, plays))

/-! ### nba_names.py

extract_player_names reads the input CSV with pd.read_csv without an
existence check, so a missing file raises FileNotFoundError (embedded as
the outer none); a missing Player column is detected and produces a console
message and an early return.  The sort by last name and the output-file
write of the success branch are not modelled beyond the split into first
and remaining name, since no checked property concerns them. -/

def playerCol : Str := "Player".toList

/-- Python name.split with a space and maxsplit 1, as a pair. -/
def splitName (s : Str) : Str × Str :=
  (s.takeWhile (fun c => c ≠ ' '), (s.dropWhile (fun c => c ≠ ' ')).drop 1)

def extract_player_names (inputFile : Option PdCsv) :
    Option (List Ev × Option (List (Str × Str))) :=
  match inputFile with
  | none => none
  | some csv =>
    if csv.headers.contains playerCol then
      let names := csv.rows.filterMap (fun r => getField csv.headers r playerCol)
      some ([], some (names.map splitName))
    else
      some ([.msg "Error: Player column not found in the input file".toList], none)

/-! ### createCSV.py

One game group of the play-by-play frame.  The float-valued columns that
the winner computation never compares (wp, score_differential_post) are
carried as their printed text; the two score columns are embedded as
integers.  create_csv_files sorts each game by play_id, takes the last row,
and writes winner 1 when its posteam_score is strictly greater than its
defteam_score and 0 otherwise, onto every row of the game. -/

structure Play where
  play_id : Int
  wp : Str
  posteam : Str
  defteam : Str
  posteam_score : Int
  defteam_score : Int
  score_differential_post : Str
deriving Repr, DecidableEq

structure OutPlay where
  wp : Str
  posteam : Str
  defteam : Str
  posteam_score : Int
  defteam_score : Int
  score_differential_post : Str
  winner : Nat
deriving Repr, DecidableEq

def playLe (a b : Play) : Prop := a.play_id ≤ b.play_id

instance : DecidableRel playLe := fun a b => Int.decLe a.play_id b.play_id

instance : IsTotal Play playLe := ⟨fun a b => Int.le_total a.play_id b.play_id⟩

instance : IsTrans Play playLe := ⟨fun _ _ _ h1 h2 => le_trans h1 h2⟩

/-- game_data.sort_values(by=play_id). -/
def sortGame (g : List Play) : List Play := g.insertionSort playLe

/-- The winner flag computed from the last play of the sorted game. -/
def winner_value (g : List Play) : Nat :=
  match (sortGame g).getLast? with
  | some lastPlay => if lastPlay.posteam_score > lastPlay.defteam_score then 1 else 0
  | none => 0

/-- The rows of the per-game output file: the selected columns of the sorted
game with the constant winner column added. -/
def game_output (g : List Play) : List OutPlay :=
  (sortGame g).map (fun p =>
    ⟨p.wp, p.posteam, p.defteam, p.posteam_score, p.defteam_score,
      p.score_differential_post, winner_value g⟩)

/-! ### Trace predicates and helper lemmas -/

def noSleeps (t : List Ev) : Bool := t.all (fun e => !isSleepEv e)

/-- Any sleep of the trace is its final event, and there is at most one. -/
def sleepLastOnly (t : List Ev) : Prop :=
  noSleeps t = true ∨
    ∃ pre s, t = pre ++ [s] ∧ isSleepEv s = true ∧ noSleeps pre = true

theorem noSleeps_append (a b : List Ev) :
    noSleeps (a ++ b) = (noSleeps a && noSleeps b) := by
  simp [noSleeps, List.all_append]

theorem noSleeps_scrape_draft (net : SpotracNet) (u : Str) :
    noSleeps (scrape_draft_year_from_spotrac net u).1 = true := by
  unfold scrape_draft_year_from_spotrac
  cases net.draftOf u <;> simp [noSleeps, isSleepEv]

theorem noSleeps_processSRow (net : SpotracNet) (r : SRow) :
    noSleeps (processSRow net r).1 = true := by
  unfold processSRow
  cases r.contractType with
  | none => simp [noSleeps]
  | some t =>
    by_cases hr : containsSeq (lowerStr t) rookieWord
    · simp only [hr, if_true]
      cases r.playerLink with
      | none => simp [noSleeps]
      | some href => simpa using noSleeps_scrape_draft net (resolveUrl href)
    · simp [hr, noSleeps]

theorem noSleeps_processSRows (net : SpotracNet) (rs : List SRow) :
    noSleeps (processSRows net rs).1 = true := by
  induction rs with
  | nil => simp [processSRows, noSleeps]
  | cons r rs ih =>
    simp only [processSRows, noSleeps_append, Bool.and_eq_true]
    exact ⟨noSleeps_processSRow net r, ih⟩

/-! ### C3: CSV round-trip through create_csv -/

/-- C3.  For every list of rows of strings, writing it with create_csv and
re-reading the file with a standard CSV reader yields exactly the header row
followed by the same rows, in order, with the same field values. -/
theorem C3_create_csv_roundtrip (data : List CsvRow) :
    csvParse (create_csv data) = rookHeaders :: data := by
  unfold create_csv
  exact csvParse_csvWrite (rookHeaders :: data)

/-! ### C8: invalid interactive input to y2y main -/

/-- C8.  If either interactive input fails int conversion, or the start year
is greater than the end year, main prints one message and returns without
any HTTP request and without creating an output file. -/
theorem C8_invalid_input_no_effect (net : SpotracNet) (i1 i2 : Option Int)
    (h : i1 = none ∨ i2 = none ∨ ∃ s e, i1 = some s ∧ i2 = some e ∧ s > e) :
    (∀ ev ∈ (y2y_main net i1 i2).1, isGetEv ev = false) ∧
    (y2y_main net i1 i2).2 = none ∧
    ∃ m, (y2y_main net i1 i2).1 = [.msg m] := by
  rcases h with h | h | ⟨s, e, hs, he, hlt⟩
  · subst h
    refine ⟨?_, rfl, _, rfl⟩
    intro ev hev
    simp only [y2y_main, List.mem_singleton] at hev
    simp [hev, isGetEv]
  · subst h
    cases i1 with
    | none =>
      refine ⟨?_, rfl, _, rfl⟩
      intro ev hev
      simp only [y2y_main, List.mem_singleton] at hev
      simp [hev, isGetEv]
    | some s =>
      refine ⟨?_, rfl, _, rfl⟩
      intro ev hev
      simp only [y2y_main, List.mem_singleton] at hev
      simp [hev, isGetEv]
  · subst hs; subst he
    have hmain : y2y_main net (some s) (some e) =
        ([.msg "Start year cannot be greater than end year. Please try again.".toList],
          none) := by
      simp [y2y_main, hlt]
    refine ⟨?_, by rw [hmain], _, by rw [hmain]⟩
    intro ev hev
    rw [hmain] at hev
    simp only [List.mem_singleton] at hev
    simp [hev, isGetEv]

def netEmptyS : SpotracNet := ⟨fun _ => .ok none, fun _ => .ok none⟩

theorem C8_invalid_input_no_effect_witness :
    (∀ ev ∈ (y2y_main netEmptyS none none).1, isGetEv ev = false) ∧
    (y2y_main netEmptyS none none).2 = none ∧
    ∃ m, (y2y_main netEmptyS none none).1 = [.msg m] :=
  C8_invalid_input_no_effect netEmptyS none none (Or.inl rfl)

/-! ### C7: header and data-row widths of the rookie-contract CSVs -/

/-- C7 (amended).  Every CSV written by the rookie-contract scripts begins
with exactly the 11-column header row; a data row carries one field per
cell of its scraped table row, plus one prepended draft-year field when the
row has a player link, so it has 11 fields exactly when that total is 11
and nothing in the code forces it. -/
theorem C7_header_and_row_widths :
    (∀ data, (csvParse (create_csv data)).head? = some rookHeaders) ∧
    (∀ (net : SpotracNet) (r : SRow) (evs : List Ev) (d : List Str),
      processSRow net r = (evs, some d) →
      d.length = r.cells.length + (if r.playerLink.isSome then 1 else 0)) := by
  constructor
  · intro data
    unfold create_csv
    rw [csvParse_csvWrite]
    rfl
  · intro net r evs d h
    unfold processSRow at h
    cases hct : r.contractType with
    | none => rw [hct] at h; simp at h
    | some t =>
      rw [hct] at h
      by_cases hr : containsSeq (lowerStr t) rookieWord
      · cases hl : r.playerLink with
        | none =>
          rw [hl] at h
          simp only [hr, if_true] at h
          simp only [Prod.mk.injEq, Option.some.injEq] at h
          rw [← h.2]
          simp
        | some href =>
          rw [hl] at h
          simp only [hr, if_true] at h
          simp only [Prod.mk.injEq, Option.some.injEq] at h
          rw [← h.2]
          simp
      · simp only [hr, if_false, Bool.false_eq_true] at h
        simp at h

def rowNoLink : SRow :=
  ⟨some "Rookie Extension".toList, ["1".toList, "Al Smith".toList], none⟩

def netC7 : SpotracNet := ⟨fun _ => .ok (some [rowNoLink]), fun _ => .ok none⟩

/-- C7 counterexample.  Against a page whose rookie row has two cells and no
player link, the run for 2020-2020 writes a file whose data row has 2
fields, not 11: row widths are not enforced by the code. -/
theorem C7_counterexample :
    ((y2y_main netC7 (some 2020) (some 2020)).2.map
      (fun fc => (csvParse fc.2).map List.length)) = some [11, 2] := by
  have hmain : (y2y_main netC7 (some 2020) (some 2020)).2 =
      some (y2y_filename 2020 2020, create_csv [rowNoLink.cells]) := by rfl
  have hp : csvParse (create_csv [rowNoLink.cells]) = rookHeaders :: [rowNoLink.cells] := by
    unfold create_csv
    exact csvParse_csvWrite _
  rw [hmain]
  simp only [Option.map_some', hp]
  rfl

theorem C7_header_and_row_widths_witness :
    processSRow netC7 rowNoLink = ([], some rowNoLink.cells) ∧
    rowNoLink.cells.length =
      rowNoLink.cells.length + (if rowNoLink.playerLink.isSome then 1 else 0) :=
  ⟨by rfl, C7_header_and_row_widths.2 netC7 rowNoLink [] rowNoLink.cells (by rfl)⟩

/-! ### C9: the winner column of createCSV.py -/

theorem sorted_playLe_getLast_ub (l : List Play) (hs : List.Sorted playLe l) :
    ∀ lastP, l.getLast? = some lastP → ∀ x ∈ l, x.play_id ≤ lastP.play_id := by
  induction l with
  | nil => intro lastP h; simp at h
  | cons a t ih =>
    intro lastP hl x hx
    cases t with
    | nil =>
      simp only [List.getLast?_singleton, Option.some.injEq] at hl
      simp only [List.mem_singleton] at hx
      subst hl; subst hx
      exact le_refl _
    | cons b t2 =>
      rw [List.getLast?_cons_cons] at hl
      have hs2 := List.sorted_cons.mp hs
      rcases List.mem_cons.mp hx with rfl | hx2
      · have hmem : lastP ∈ b :: t2 := by
          obtain ⟨hne, heq⟩ :=
            List.mem_getLast?_eq_getLast (Option.mem_def.mpr hl)
          rw [heq]
          exact List.getLast_mem hne
        exact hs2.1 lastP hmem
      · exact ih hs2.2 lastP hl x hx2

/-- C9.  Every row of a game file written by create_csv_files carries the
same winner value, and that value is 1 exactly when, on a play of the game
with the largest play_id (the last row after sorting by play_id), the
offensive score strictly exceeds the defensive score, and 0 otherwise,
ties included. -/
theorem C9_winner_constant_from_last_play (g : List Play) (h : g ≠ []) :
    (∀ q ∈ game_output g, q.winner = winner_value g) ∧
    ∃ lastP, (sortGame g).getLast? = some lastP ∧ lastP ∈ g ∧
      (∀ p ∈ g, p.play_id ≤ lastP.play_id) ∧
      winner_value g =
        (if lastP.posteam_score > lastP.defteam_score then 1 else 0) := by
  have hperm : List.Perm (sortGame g) g := List.perm_insertionSort playLe g
  have hsorted : List.Sorted playLe (sortGame g) := List.sorted_insertionSort playLe g
  constructor
  · intro q hq
    unfold game_output at hq
    obtain ⟨p, _, hq⟩ := List.mem_map.mp hq
    rw [← hq]
  · have hne : sortGame g ≠ [] := by
      intro h0
      rw [h0] at hperm
      exact h hperm.symm.eq_nil
    refine ⟨(sortGame g).getLast hne, List.getLast?_eq_getLast _ hne, ?_, ?_, ?_⟩
    · exact hperm.mem_iff.mp (List.getLast_mem hne)
    · intro p hp
      exact sorted_playLe_getLast_ub (sortGame g) hsorted _
        (List.getLast?_eq_getLast _ hne) p (hperm.mem_iff.mpr hp)
    · unfold winner_value
      rw [List.getLast?_eq_getLast _ hne]

def playA : Play := ⟨1, "0.5".toList, "KC".toList, "DET".toList, 0, 7, "-7".toList⟩

def playB : Play := ⟨2, "0.9".toList, "KC".toList, "DET".toList, 21, 14, "7".toList⟩

theorem C9_winner_constant_from_last_play_witness :
    (∀ q ∈ game_output [playB, playA], q.winner = winner_value [playB, playA]) ∧
    ∃ lastP, (sortGame [playB, playA]).getLast? = some lastP ∧
      lastP ∈ [playB, playA] ∧
      (∀ p ∈ [playB, playA], p.play_id ≤ lastP.play_id) ∧
      winner_value [playB, playA] =
        (if lastP.posteam_score > lastP.defteam_score then 1 else 0) :=
  C9_winner_constant_from_last_play [playB, playA] (by simp)

/-! ### C10: the row appended by save_player_data -/

/-- C10 (amended).  The row save_player_data appends to player_stats.csv is
exactly the player name, the seasons played, the position with blank or
whitespace-only positions replaced by Unknown, followed by only those career
stats not equal to N/A, so the row may be shorter than the 28-column header
row. -/
theorem C10_saved_row (name : Str) (seasons : Nat) (pos : Str) (cs : List Str)
    (rs : List CsvRow) (first : Bool) :
    csvParse (save_player_data name seasons pos cs (pdWrite rs) first) =
      (if first then [cbbHeaders] else rs) ++
        [name :: natDigits seasons ::
          (if stripStr pos = [] then "Unknown".toList else pos) ::
          cs.filter (fun s => s ≠ naStr)] := by
  have key : ∀ (rs2 : List CsvRow) (row : CsvRow),
      csvParse (csvWriteWith ['\n'] rs2 ++ csvWriteWith ['\n'] [row]) = rs2 ++ [row] :=
    fun rs2 row => csvParse_append rs2 [row] _ _ (Or.inr rfl) (Or.inr rfl)
  cases first with
  | true => exact key [cbbHeaders] _
  | false => exact key rs _

/-- C10 counterexample.  With a whitespace-only position, the appended row
holds Unknown in the position field, not the position argument itself, so
the row is not exactly name, seasons, position and the non-N/A stats. -/
theorem C10_counterexample :
    csvParse (save_player_data "A".toList 1 [' '] ["1".toList] (pdWrite []) false) =
      [["A".toList, "1".toList, "Unknown".toList, "1".toList]] ∧
    ¬ (csvParse (save_player_data "A".toList 1 [' '] ["1".toList] (pdWrite []) false) =
      [["A".toList, "1".toList, [' '], "1".toList]]) := by
  constructor <;> decide

/-! ### C1: placement of the courtesy sleep -/

theorem noSleeps_fetchProfile (net : SRNet) (st : CbbState) (pn purl : Str) :
    noSleeps (cbb_fetchProfile net st pn purl).1 = true := by
  unfold cbb_fetchProfile
  cases hp : net.profile purl with
  | error e => simp [noSleeps, isSleepEv]
  | ok sp =>
    obtain ⟨status, prof⟩ := sp
    by_cases h200 : status = 200
    · cases hc : prof.career <;> simp [hc, h200, noSleeps, isSleepEv]
    · simp [h200, noSleeps, isSleepEv]

theorem noSleeps_fetchFound (net : SRNet) (st : CbbState) (pn fn ln : Str)
    (links : List Link) :
    noSleeps (cbb_fetchFound net st pn fn ln links).1 = true := by
  unfold cbb_fetchFound
  cases search_player_profile links fn ln with
  | none => simp [noSleeps, isSleepEv]
  | some purl => exact noSleeps_fetchProfile net st pn purl

def rowLinkA : SRow :=
  ⟨some "Rookie Extension".toList, ["1".toList, "Al".toList], some "/a".toList⟩

def rowLinkB : SRow :=
  ⟨some "Rookie Extension".toList, ["2".toList, "Bo".toList], some "/b".toList⟩

def netC1 : SpotracNet :=
  ⟨fun _ => .ok (some [rowLinkA, rowLinkB]), fun _ => .ok (some "2019".toList)⟩

/-- C1 counterexample.  On a year page with two rookie rows carrying player
links, the two player-profile GETs (and the year-page GET before them) are
issued back to back: successive requests of one iteration have no sleep
between them, because time.sleep runs only once, after the row loop. -/
theorem C1_counterexample :
    sleepSeparated (fetch_extension_data netC1 2020 2).1 = false := by decide

/-- C1 (amended).  The configured delay runs at most once per outer-loop
iteration and only as its final event: fetch_extension_data sleeps exactly
once, after all requests of the year, when the year page was fetched
without an exception (and not at all otherwise), and a cbb_stat_scraper row
iteration sleeps at most once, at its end; requests within one iteration
are issued with no sleep between them. -/
theorem C1_sleep_once_per_iteration :
    (∀ (net : SpotracNet) (year : Int) (delay : Nat),
      sleepLastOnly (fetch_extension_data net year delay).1) ∧
    (∀ (net : SpotracNet) (year : Int) (delay : Nat) (tbl : Option (List SRow)),
      net.tableOf (yearUrl year) = .ok tbl →
      ∃ pre, (fetch_extension_data net year delay).1 = pre ++ [.sleep delay] ∧
        noSleeps pre = true) ∧
    (∀ (net : SRNet) (st : CbbState) (fn ln : Str),
      sleepLastOnly (cbb_processRow net st fn ln).1) := by
  have hok : ∀ (net : SpotracNet) (year : Int) (delay : Nat) (tbl : Option (List SRow)),
      net.tableOf (yearUrl year) = .ok tbl →
      ∃ pre, (fetch_extension_data net year delay).1 = pre ++ [.sleep delay] ∧
        noSleeps pre = true := by
    intro net year delay tbl h
    refine ⟨.get (yearUrl year) :: (processSRows net (tbl.getD [])).1, ?_, ?_⟩
    · unfold fetch_extension_data
      dsimp only
      rw [h]
      simp
    · have := noSleeps_processSRows net (tbl.getD [])
      simp [noSleeps, isSleepEv] at this ⊢
      exact this
  refine ⟨?_, hok, ?_⟩
  · intro net year delay
    cases htbl : net.tableOf (yearUrl year) with
    | error e =>
      left
      unfold fetch_extension_data
      dsimp only
      rw [htbl]
      simp [noSleeps, isSleepEv]
    | ok tbl =>
      obtain ⟨pre, hpre, hns⟩ := hok net year delay tbl htbl
      exact Or.inr ⟨pre, .sleep delay, hpre, rfl, hns⟩
  · intro net st fn ln
    unfold cbb_processRow
    dsimp only
    split
    · exact Or.inl (noSleeps_fetchProfile net st _ larryUrl)
    · split
      · exact Or.inl (by simp [noSleeps, isSleepEv])
      · split
        · split
          · exact Or.inl (noSleeps_fetchFound _ _ _ _ _ _)
          · exact Or.inr ⟨_, .sleepRand, rfl, rfl, noSleeps_fetchFound _ _ _ _ _ _⟩
        · split
          · exact Or.inl (by simp [noSleeps, isSleepEv])
          · split
            · split
              · refine Or.inl ?_
                rw [noSleeps_append, noSleeps_fetchFound]
                simp [noSleeps, isSleepEv]
              · refine Or.inr ⟨_, .sleepRand, rfl, rfl, ?_⟩
                rw [noSleeps_append, noSleeps_fetchFound]
                simp [noSleeps, isSleepEv]
            · exact Or.inl (by simp [noSleeps, isSleepEv])

theorem C1_sleep_once_per_iteration_witness :
    ∃ pre, (fetch_extension_data netC1 2020 2).1 = pre ++ [.sleep 2] ∧
      noSleeps pre = true :=
  C1_sleep_once_per_iteration.2.1 netC1 2020 2 (some [rowLinkA, rowLinkB]) rfl

/-! ### C2: handling of failed HTTP requests -/

def netC2 : SRNet :=
  ⟨fun _ => .error "boom".toList, fun _ => .error "boom".toList⟩

def csvC2 : PdCsv := ⟨[firstNameCol, lastNameCol], [["Al".toList, "Aab".toList]]⟩

/-- C2 counterexample.  In cbb_stat_scraper a raised request exception on
the letter-index page is not caught: the run aborts right after the GET,
with no console message and without skipping to the next item. -/
theorem C2_counterexample :
    cbb_main netC2 (some csvC2) true = ([.get (indexUrl 'a')], none) := by decide

/-- C2 (amended).  year_to_year_download catches a request exception per
item, prints an error and continues, so a run over a valid year range
always completes and writes its file; cbb_stat_scraper checks only status
codes, and a raised request exception propagates out of the row loop,
aborting the run with no further events. -/
theorem C2_error_handling :
    (∀ (net : SpotracNet) (year : Int) (delay : Nat) (e : Str),
      net.tableOf (yearUrl year) = .error e →
      fetch_extension_data net year delay =
        ([.get (yearUrl year),
          .msg ("Error fetching data from URL: ".toList ++ e)], [])) ∧
    (∀ (net : SpotracNet) (s e : Int), s ≤ e →
      ((y2y_main net (some s) (some e)).2).isSome = true) ∧
    (∀ (net : SRNet) (st : CbbState) (headers : List Str) (row : List Str)
      (rows : List (List Str)) (fn ln : Str),
      getField headers row firstNameCol = some fn →
      getField headers row lastNameCol = some ln →
      (cbb_processRow net st fn ln).2 = none →
      (cbb_loop net st headers (row :: rows)).2 = none ∧
      (cbb_loop net st headers (row :: rows)).1 = (cbb_processRow net st fn ln).1) := by
  refine ⟨?_, ?_, ?_⟩
  · intro net year delay e h
    unfold fetch_extension_data
    dsimp only
    rw [h]
  · intro net s e h
    have hng : ¬ s > e := not_lt.mpr h
    simp [y2y_main, hng]
  · intro net st headers row rows fn ln hfn hln habort
    unfold cbb_loop
    rw [hfn, hln]
    dsimp only
    rw [habort]
    exact ⟨rfl, rfl⟩

def netErrS : SpotracNet :=
  ⟨fun _ => .error "boom".toList, fun _ => .error "boom".toList⟩

theorem C2_error_handling_witness :
    fetch_extension_data netErrS 2020 2 =
      ([.get (yearUrl 2020),
        .msg ("Error fetching data from URL: ".toList ++ "boom".toList)], []) :=
  C2_error_handling.1 netErrS 2020 2 "boom".toList rfl

/-! ### C6: repeated requests for the same URL -/

def netC6 : SRNet :=
  ⟨fun _ => .ok (500, []), fun _ => .ok (500, ⟨[], 0, none⟩)⟩

def csvC6 : PdCsv :=
  ⟨[firstNameCol, lastNameCol],
    [["Al".toList, "Aab".toList], ["Bo".toList, "Aac".toList]]⟩

/-- C6 counterexample.  When the letter-index page for a answers with a
non-200 status, the row is skipped without updating the cached letter, so
the next row with the same initial requests exactly the same URL again:
one run can issue the same GET twice. -/
theorem C6_counterexample :
    getCount (cbb_main netC6 (some csvC6) true).1 (indexUrl 'a') = 2 := by decide

/-- C6 (amended).  The scripts have no retry construct: within one loop
iteration a failed request is never re-issued — a request exception aborts
the run with the failing GET as the last event, and a non-200 index
response only logs a message — but the same URL can be requested again in a
later iteration, so a run may issue the same GET more than once. -/
theorem C6_no_retry_within_iteration :
    (∀ (net : SpotracNet) (year : Int) (delay : Nat) (e : Str),
      net.tableOf (yearUrl year) = .error e →
      getCount (fetch_extension_data net year delay).1 (yearUrl year) = 1) ∧
    (∀ (net : SpotracNet) (u : Str),
      getCount (scrape_draft_year_from_spotrac net u).1 u = 1) ∧
    (∀ (net : SRNet) (st : CbbState) (pn purl : Str) (e : Str),
      net.profile purl = .error e →
      cbb_fetchProfile net st pn purl = ([.get purl], none)) ∧
    (∀ (net : SRNet) (st : CbbState) (fn ln : Str) (e : Str),
      fn ++ [' '] ++ ln ≠ larryName →
      is_player_processed (fn ++ [' '] ++ ln) st.processed = false →
      st.currentLetter ≠ [(ln.headD ' ').toLower] →
      net.page (indexUrl ((ln.headD ' ').toLower)) = .error e →
      cbb_processRow net st fn ln =
        ([.get (indexUrl ((ln.headD ' ').toLower))], none)) ∧
    (∀ (net : SRNet) (st : CbbState) (fn ln : Str) (status : Nat) (links : List Link),
      fn ++ [' '] ++ ln ≠ larryName →
      is_player_processed (fn ++ [' '] ++ ln) st.processed = false →
      st.currentLetter ≠ [(ln.headD ' ').toLower] →
      net.page (indexUrl ((ln.headD ' ').toLower)) = .ok (status, links) →
      status ≠ 200 →
      cbb_processRow net st fn ln =
        ([.get (indexUrl ((ln.headD ' ').toLower)),
          .msg ("Failed to navigate to ".toList ++ indexUrl ((ln.headD ' ').toLower))],
          some st)) := by
  refine ⟨?_, ?_, ?_, ?_, ?_⟩
  · intro net year delay e h
    unfold fetch_extension_data
    dsimp only
    rw [h]
    simp [getCount, isGetEv]
  · intro net u
    unfold scrape_draft_year_from_spotrac
    cases net.draftOf u <;> simp [getCount]
  · intro net st pn purl e h
    unfold cbb_fetchProfile
    rw [h]
  · intro net st fn ln e hL hproc hletter h
    unfold cbb_processRow
    dsimp only
    rw [if_neg hL, if_neg (by simpa using hproc), if_neg hletter, h]
  · intro net st fn ln status links hL hproc hletter h h200
    unfold cbb_processRow
    dsimp only
    rw [if_neg hL, if_neg (by simpa using hproc), if_neg hletter, h]
    dsimp only
    rw [if_neg h200]

def netC6err : SRNet :=
  ⟨fun _ => .error "boom".toList, fun _ => .error "boom".toList⟩

def stFresh : CbbState := ⟨[], [], [], false, []⟩

theorem C6_no_retry_within_iteration_witness :
    cbb_processRow netC6err stFresh "Al".toList "Aab".toList =
      ([.get (indexUrl 'a')], none) :=
  C6_no_retry_within_iteration.2.2.2.1 netC6err stFresh "Al".toList "Aab".toList
    "boom".toList (by decide) (by decide) (by decide) rfl

/-! ### C4: checkpointing of processed players and games -/

theorem splitLines_line (url : Str) (hn : '\n' ∉ url) :
    ∀ (cur rest : Str),
      splitLines cur (url ++ '\n' :: rest) = (cur ++ url) :: splitLines [] rest := by
  induction url with
  | nil =>
    intro cur rest
    simp [splitLines]
  | cons c cs ih =>
    intro cur rest
    have hc : ¬ c = '\n' := fun h => hn (h ▸ List.mem_cons_self c cs)
    have hcs : '\n' ∉ cs := fun h => hn (List.mem_cons_of_mem c h)
    simp only [List.cons_append, splitLines, if_neg hc, List.append_eq]
    rw [ih hcs (cur ++ [c]) rest]
    simp

theorem mem_splitLines_marked (url : Str) (hn : '\n' ∉ url) :
    ∀ (content cur : Str),
      ((∃ p, content = p ++ ['\n']) ∨ (content = [] ∧ cur = [])) →
      url ∈ splitLines cur (content ++ url ++ ['\n']) := by
  intro content
  induction content with
  | nil =>
    intro cur hc
    rcases hc with ⟨p, hp⟩ | ⟨_, hcur⟩
    · exact absurd hp (by simp)
    · subst hcur
      rw [List.nil_append, splitLines_line url hn [] []]
      simp [splitLines]
  | cons c cs ih =>
    intro cur hc
    rcases hc with ⟨p, hp⟩ | ⟨hnil, _⟩
    · cases p with
      | nil =>
        simp only [List.nil_append, List.cons.injEq] at hp
        obtain ⟨hc1, hc2⟩ := hp
        subst hc1; subst hc2
        have hstep : splitLines cur ((['\n'] : Str) ++ url ++ ['\n']) =
            cur :: splitLines [] (url ++ ['\n']) := by
          simp [splitLines]
        rw [hstep, splitLines_line url hn [] []]
        simp [splitLines]
      | cons d p2 =>
        simp only [List.cons_append, List.cons.injEq] at hp
        obtain ⟨hc1, hc2⟩ := hp
        subst hc1
        by_cases hcn : c = '\n'
        · simp only [List.cons_append, splitLines, if_pos hcn]
          exact List.mem_cons_of_mem _ (ih [] (Or.inl ⟨p2, hc2⟩))
        · simp only [List.cons_append, splitLines, if_neg hcn]
          exact ih (cur ++ [c]) (Or.inl ⟨p2, hc2⟩)
    · exact absurd hnil (by simp)

def profL : Profile := ⟨"PF".toList, 4, some ["30".toList]⟩

def netC4 : SRNet := ⟨fun _ => .ok (200, []), fun _ => .ok (200, profL)⟩

def stC4 : CbbState := ⟨[], [], [larryName], false, []⟩

/-- C4 counterexample.  The hard-coded Larry Nance branch runs before the
is-processed check, so the main loop issues an HTTP request for an item
whose is-processed check returns True. -/
theorem C4_counterexample :
    is_player_processed larryName stC4.processed = true ∧
    .get larryUrl ∈ (cbb_processRow netC4 stC4 "Larry".toList "Nance".toList).1 := by
  constructor <;> decide

/-- C4 (amended).  Marking makes the is-processed check return True — in
cbb_stat_scraper for every state, in hw2-download provided the URL has no
line break and the checkpoint file is empty or newline-terminated — and the
main loops issue no HTTP request for an item whose check returns True,
except for the special-cased player Larry Nance, whom cbb_stat_scraper
requests regardless of the check. -/
theorem C4_checkpoint_round_trip :
    (∀ (name : Str) (processed : List Str),
      is_player_processed name (mark_player_processed name processed) = true) ∧
    (∀ (url content : Str), '\n' ∉ url →
      (content = [] ∨ ∃ p, content = p ++ ['\n']) →
      is_url_processed url (mark_url_as_processed url content) = true) ∧
    (∀ (net : SRNet) (st : CbbState) (fn ln : Str),
      is_player_processed (fn ++ [' '] ++ ln) st.processed = true →
      fn ++ [' '] ++ ln ≠ larryName →
      ∀ e ∈ (cbb_processRow net st fn ln).1, isGetEv e = false) ∧
    (∀ (net : BBRefNet) (content url : Str),
      is_url_processed url content = true →
      ∀ e ∈ (hw2_body net content url).1, isGetEv e = false) := by
  refine ⟨?_, ?_, ?_, ?_⟩
  · intro name processed
    simp [is_player_processed, mark_player_processed]
  · intro url content hn hc
    have hmem : url ∈ splitLines [] (content ++ url ++ ['\n']) := by
      apply mem_splitLines_marked url hn content []
      rcases hc with hc | hc
      · exact Or.inr ⟨hc, rfl⟩
      · exact Or.inl hc
    unfold is_url_processed mark_url_as_processed
    simpa using hmem
  · intro net st fn ln hproc hL
    unfold cbb_processRow
    dsimp only
    rw [if_neg hL, if_pos (by simpa using hproc)]
    intro e he
    simp only [List.mem_singleton] at he
    simp [he, isGetEv]
  · intro net content url hproc
    unfold hw2_body
    rw [if_pos hproc]
    intro e he
    simp only [List.mem_singleton] at he
    simp [he, isGetEv]

def stC4b : CbbState := ⟨[], [], ["Al Aab".toList], false, []⟩

theorem C4_checkpoint_round_trip_witness :
    ∀ e ∈ (cbb_processRow netC4 stC4b "Al".toList "Aab".toList).1, isGetEv e = false :=
  C4_checkpoint_round_trip.2.2.1 netC4 stC4b "Al".toList "Aab".toList
    (by decide) (by decide)

/-! ### C5: missing input files and missing columns -/

def csvC5 : PdCsv := ⟨["Name".toList], [["Al".toList]]⟩

/-- C5 counterexample.  cbb_stat_scraper with an existing input file that
lacks the First Name column crashes with an uncaught KeyError: the run
aborts with no console message instead of a clean, logged failure. -/
theorem C5_counterexample :
    cbb_main netC4 (some csvC5) true = ([], none) := by decide

/-- C5 (amended).  A missing input file is handled cleanly (message and
normal return) by cbb_stat_scraper, and a missing Player column by
nba_names; but cbb_stat_scraper raises an uncaught KeyError when the input
file exists and lacks a name column, and nba_names raises an uncaught
FileNotFoundError when its input file is missing. -/
theorem C5_input_validation :
    (∀ (net : SRNet) (oe : Bool),
      cbb_main net none oe =
        ([.msg "Error: The input CSV file player_names_sorted.csv was not found.".toList],
          some (cbbInit oe))) ∧
    (∀ (net : SRNet) (csv : PdCsv) (oe : Bool) (row : List Str)
      (rows : List (List Str)),
      csv.rows = row :: rows →
      (getField csv.headers row firstNameCol = none ∨
        getField csv.headers row lastNameCol = none) →
      (cbb_main net (some csv) oe).2 = none ∧ (cbb_main net (some csv) oe).1 = []) ∧
    (∀ (csv : PdCsv), csv.headers.contains playerCol = false →
      extract_player_names (some csv) =
        some ([.msg "Error: Player column not found in the input file".toList], none)) ∧
    (extract_player_names none = none) := by
  refine ⟨?_, ?_, ?_, rfl⟩
  · intro net oe
    rfl
  · intro net csv oe row rows hrows hcol
    have hloop : cbb_loop net (cbbInit oe) csv.headers (row :: rows) = ([], none) := by
      unfold cbb_loop
      rcases hcol with h | h
      · rw [h]
      · rw [h]
        rcases getField csv.headers row firstNameCol with _ | fn <;> rfl
    unfold cbb_main
    dsimp only
    rw [hrows, hloop]
    exact ⟨rfl, rfl⟩
  · intro csv h
    unfold extract_player_names
    dsimp only
    rw [h]
    simp

theorem C5_input_validation_witness :
    (cbb_main netC4 (some csvC5) true).2 = none ∧
    (cbb_main netC4 (some csvC5) true).1 = [] :=
  C5_input_validation.2.1 netC4 csvC5 true ["Al".toList] [] rfl
    (Or.inl (by decide))
